import Mathlib

/-!
Shallow embedding of `src/pdfiler.py` (RockerzXY/pdfiler): a CLI tool that
collects image paths, validates them with PIL, optionally re-encodes each
through a lossy JPEG round-trip, and assembles the results into one PDF.

The external world (filesystem and the PIL codec) is modelled by an oracle
structure `FS`.  Each Python function of the source becomes a Lean
definition of the same name; the click entry point `main` becomes a pure
function from the oracle and the parsed options to an `Outcome` record that
captures the exit code, the structured stdout/stderr traces, the sequence of
in-memory images handed to the PDF writer, whether the PDF write succeeded,
and which source files were deleted.
-/

/-- A decoded in-memory PIL image: its reported format (`img.format`, which
can be `None`), its color mode string (`img.mode`, e.g. "RGB", "RGBA", "P",
"LA"), whether `img.verify()` succeeds on it, and an abstract pixel-content
identifier. -/
structure ImageObj where
  format : Option String
  mode : String
  verifyOk : Bool
  pix : Nat
deriving DecidableEq, Repr

/-- The exception classes `Image.open`/`verify` can raise that the source's
`except (UnidentifiedImageError, IOError)` clause enumerates:
`UnidentifiedImageError` (undecodable or empty data) and `IOError`/`OSError`
(filesystem-level errors). -/
inductive PILError where
  | unidentified
  | ioError
deriving DecidableEq, Repr

/-- Result of `Image.open` on a path: a decoded image or a raised error. -/
inductive OpenResult where
  | ok (img : ImageObj)
  | err (e : PILError)
deriving DecidableEq, Repr

/-- The world oracle: filesystem state and PIL codec behavior, fixed for one
run of the program. -/
structure FS where
  /-- `os.path.isfile` -/
  isFile : String → Bool
  /-- `Image.open` on a path (deterministic within a run) -/
  openImage : String → OpenResult
  /-- `os.path.getmtime` -/
  mtime : String → Int
  /-- `os.listdir` -/
  listdir : String → List String
  /-- `os.getcwd()` -/
  cwd : String
  /-- `os.path.exists` -/
  pathExists : String → Bool
  /-- whether `processed_images[0].save(output, "PDF", ...)` succeeds -/
  saveOk : Bool
  /-- whether `os.remove p` succeeds (raises iff false) -/
  removeOk : String → Bool
  /-- JPEG encode at a quality into a buffer then `Image.open` the buffer:
  the result image, or an error (e.g. a mode JPEG cannot encode) -/
  jpegRoundtrip : ImageObj → Nat → Except Unit ImageObj
  /-- file size in bytes -/
  size : String → Nat

instance instDecEqExcept {ε α : Type} [DecidableEq ε] [DecidableEq α] :
    DecidableEq (Except ε α) := fun x y =>
  match x, y with
  | Except.error e, Except.error f =>
    if h : e = f then isTrue (by rw [h])
    else isFalse (fun hc => by cases hc; exact h rfl)
  | Except.error _, Except.ok _ => isFalse (fun hc => Except.noConfusion hc)
  | Except.ok _, Except.error _ => isFalse (fun hc => Except.noConfusion hc)
  | Except.ok a, Except.ok b =>
    if h : a = b then isTrue (by rw [h])
    else isFalse (fun hc => by cases hc; exact h rfl)

/-- `os.path.isabs` on POSIX: the path starts with a slash. -/
def isAbs (p : String) : Bool :=
  match p.toList with
  | [] => false
  | c :: _ => decide (c = '/')

/-- Whether a path ends with a slash. -/
def endsWithSlash (d : String) : Bool :=
  match d.toList.getLast? with
  | some c => decide (c = '/')
  | none => false

/-- `os.path.join d f` on POSIX (no normalization). -/
def joinPath (d f : String) : String :=
  if isAbs f then f
  else if endsWithSlash d then d ++ f
  else d ++ "/" ++ f

/-- `os.path.abspath` relative to the oracle's working directory
(normalization not modelled). -/
def abspath (fs : FS) (p : String) : String :=
  if isAbs p then p else joinPath fs.cwd p

/-- `os.path.dirname` on POSIX: everything before the last slash, with
trailing slashes stripped unless the result is the root. -/
def dirname (p : String) : String :=
  let rev := p.toList.reverse
  let r := rev.dropWhile (fun c => c ≠ '/')
  let r2 := r.dropWhile (fun c => c = '/')
  match r2 with
  | [] => if r.isEmpty then "" else "/"
  | _ => String.mk r2.reverse

/-- Body of `is_image_file` before its `try/except`: open the file, run the
integrity check (`img.verify()`, whose failure raises a PIL error), reopen,
and test `img.format not in ('GIF', None)`.  Modelled in the exception monad
so that the catch-all behavior of the wrapper is itself a theorem. -/
def is_image_file_exc (fs : FS) (p : String) : Except PILError Bool :=
  match fs.openImage p with
  | OpenResult.err e => Except.error e
  | OpenResult.ok img =>
    if img.verifyOk then
      match fs.openImage p with
      | OpenResult.err e => Except.error e
      | OpenResult.ok img2 =>
        Except.ok (decide (img2.format ≠ some "GIF" ∧ img2.format ≠ none))
    else Except.error PILError.ioError

/-- `is_image_file` (src/pdfiler.py:10-22): the `try/except` wrapper turning
any raised `UnidentifiedImageError`/`IOError` into `False`. -/
def is_image_file (fs : FS) (p : String) : Bool :=
  match is_image_file_exc fs p with
  | Except.ok b => b
  | Except.error _ => false

/-- `img.convert('RGB')`: same pixels identifier and format, mode forced to
"RGB" (PIL drops the alpha channel here; it does not composite). -/
def convertRGB (img : ImageObj) : ImageObj :=
  { img with mode := "RGB" }

/-- PIL modes whose color model includes an alpha channel. -/
def hasAlpha (mode : String) : Bool :=
  decide (mode = "RGBA" ∨ mode = "LA" ∨ mode = "PA" ∨ mode = "RGBa" ∨ mode = "La")

/-- PIL palette-indexed modes. -/
def isPaletteMode (mode : String) : Bool :=
  decide (mode = "P" ∨ mode = "PA")

/-- The conversion step of `process_image` that runs before the optional
lossy re-encode (src/pdfiler.py:32-33): only modes `'RGBA'` and `'P'`
are converted to `'RGB'`. -/
def preEncode (img : ImageObj) : ImageObj :=
  if img.mode = "RGBA" ∨ img.mode = "P" then convertRGB img else img

/-- `process_image` (src/pdfiler.py:25-46).  The `except Exception` handler
prints a diagnostic and calls `sys.exit(1)`; that fatal exit is the
`Except.error` case, which `main` turns into a run-aborting outcome. -/
def process_image (fs : FS) (file_path : String) (quality : Nat) :
    Except Unit ImageObj :=
  match fs.openImage file_path with
  | OpenResult.err _ => Except.error ()
  | OpenResult.ok img0 =>
    let img1 := preEncode img0
    match (if quality ≠ 0 then fs.jpegRoundtrip img1 quality
           else Except.ok img1) with
    | Except.error _ => Except.error ()
    | Except.ok img2 =>
      Except.ok (if img2.mode = "RGB" then img2 else convertRGB img2)

/-- `get_images_from_directory` (src/pdfiler.py:49-56): keep the directory
entries accepted by `is_image_file`, sort them ascending by modification
time (Python's stable `list.sort(key=...)`), and join each onto the
directory. -/
def get_images_from_directory (fs : FS) (directory : String) : List String :=
  let files := (fs.listdir directory).filter
    (fun f => is_image_file fs (joinPath directory f))
  let sorted := files.insertionSort
    (fun a b => fs.mtime (joinPath directory a) ≤ fs.mtime (joinPath directory b))
  sorted.map (fun f => joinPath directory f)

/-- The parsed command-line options of the click entry point
(src/pdfiler.py:59-70).  click's `IntRange(1, 100)` guarantees
`1 ≤ quality ≤ 100`; the guarantee itself is not baked in, `main` only
tests truthiness (`quality ≠ 0`) as the source does. -/
structure Opts where
  images : List String
  input_dir : Option String
  quality : Nat
  output : String
  dry_run : Bool
  remove_source : Bool
  verbose : Bool
deriving DecidableEq, Repr

/-- The diagnostics `main` and its helpers emit on stderr, one constructor
per `click.echo(..., err=True)` site of the source. -/
inductive Diag where
  /-- "при использовании -d необходимо указать файлы" (line 89) -/
  | usageNeedFiles
  /-- "при использовании -d файлы должны быть указаны без полного пути" (line 94) -/
  | usageAbsPath
  /-- "Файл не найден" (line 120) -/
  | fileNotFound (p : String)
  /-- "Файл не является изображением" (line 124) -/
  | notAnImage (p : String)
  /-- "Нет валидных изображений для обработки" (lines 113 and 132) -/
  | noValidImages
  /-- "Ошибка обработки изображения" printed inside `process_image` (line 45) -/
  | processingError (p : String)
  /-- "Не удалось обработать ни одно изображение" (line 150) -/
  | noneProcessed
  /-- "Директория для сохранения не существует" (line 156) -/
  | outputDirMissing (d : String)
  /-- "Ошибка при сохранении PDF" (line 169) -/
  | savePdfError
deriving DecidableEq, Repr

/-- The lines `main` emits on stdout, one constructor per plain
`click.echo` site of the source. -/
inductive OutLine where
  /-- "Найдено изображений в (текущей) директории: n" (lines 100, 108) -/
  | foundInDir (n : Nat)
  /-- "Файлов после проверки: n" (line 129) -/
  | checkedCount (n : Nat)
  /-- "Файлы, которые будут обработаны:" (line 136) -/
  | dryRunHeader
  /-- "{idx} --- {file_path}" (line 138) -/
  | dryRunItem (i : Nat) (p : String)
  /-- "Страница {idx} --- {file_path}" (line 147) -/
  | pageLine (i : Nat) (p : String)
  /-- "Файл {output} (...) создан за ..." (line 163) -/
  | successLine
  /-- "Исходные файлы удалены." (line 167) -/
  | removedLine
deriving DecidableEq, Repr

/-- Observable result of one run: process exit code, the structured stdout
and stderr traces, the image sequence passed to the PDF `save` call (`none`
when the run never reaches assembly), whether the PDF write succeeded, and
the source files deleted, in deletion order. -/
structure Outcome where
  exitCode : Nat
  stdout : List OutLine
  stderr : List Diag
  assembled : Option (List ImageObj)
  pdfSaved : Bool
  removed : List String
deriving DecidableEq, Repr

/-- Result of the argument-resolution stage of `main`
(src/pdfiler.py:87-110): a usage error, or the collected path list together
with a flag recording whether the directory-scan (`auto-stamp`) branch ran
and the verbose lines echoed so far. -/
inductive CollectResult where
  | usageErr (d : Diag)
  | collected (scanned : Bool) (paths : List String) (out : List OutLine)
deriving DecidableEq, Repr

/-- The argument-resolution stage of `main` (src/pdfiler.py:87-110). -/
def collectImages (fs : FS) (o : Opts) : CollectResult :=
  match o.input_dir with
  | some d =>
    if o.images.isEmpty then CollectResult.usageErr Diag.usageNeedFiles
    else if o.images.any isAbs then CollectResult.usageErr Diag.usageAbsPath
    else if o.images.head? = some "auto-stamp" then
      let imgs := get_images_from_directory fs d
      CollectResult.collected true imgs
        (if o.verbose then [OutLine.foundInDir imgs.length] else [])
    else
      CollectResult.collected false (o.images.map (fun f => joinPath d f)) []
  | none =>
    if o.images.head? = some "auto-stamp" then
      let imgs := get_images_from_directory fs fs.cwd
      CollectResult.collected true imgs
        (if o.verbose then [OutLine.foundInDir imgs.length] else [])
    else
      CollectResult.collected false
        ((o.images.filter fs.isFile).map (fun p => abspath fs p)) []

/-- The per-path validation loop of `main` (src/pdfiler.py:116-126):
returns the surviving paths in order and the stderr diagnostics emitted
(only under `verbose`). -/
def filterImages (fs : FS) (verbose : Bool) : List String → List String × List Diag
  | [] => ([], [])
  | p :: ps =>
    let rest := filterImages fs verbose ps
    if fs.isFile p then
      if is_image_file fs p then (p :: rest.1, rest.2)
      else (rest.1, (if verbose then [Diag.notAnImage p] else []) ++ rest.2)
    else (rest.1, (if verbose then [Diag.fileNotFound p] else []) ++ rest.2)

/-- The transcoding loop of `main` (src/pdfiler.py:141-147): maps
`process_image` over the validated paths.  A failing `process_image` calls
`sys.exit(1)` inside itself, so the loop stops at the first failure: the
result is the images of the processed prefix together with the failing path
when there is one. -/
def processAll (fs : FS) (quality : Nat) : List String → List ImageObj × Option String
  | [] => ([], none)
  | p :: ps =>
    match process_image fs p quality with
    | Except.error _ => ([], some p)
    | Except.ok img =>
      let rest := processAll fs quality ps
      (img :: rest.1, rest.2)

/-- The source-removal loop of `main` (src/pdfiler.py:165-166): `os.remove`
each path in order; a raising `os.remove` aborts the loop (the exception
propagates to the surrounding `except`).  Returns the removed prefix and
whether every removal succeeded. -/
def removeAll (fs : FS) : List String → List String × Bool
  | [] => ([], true)
  | p :: ps =>
    if fs.removeOk p then
      let rest := removeAll fs ps
      (p :: rest.1, rest.2)
    else ([], false)

/-- `enumerate(l, start=i)`. -/
def enumFrom (i : Nat) : List String → List (Nat × String)
  | [] => []
  | p :: ps => (i, p) :: enumFrom (i + 1) ps

/-- Everything `main` does after the validation filter
(src/pdfiler.py:128-170), given the surviving paths, the diagnostics and
stdout lines accumulated so far. -/
def afterValid (fs : FS) (o : Opts) (valid : List String) (ds : List Diag)
    (out1 : List OutLine) : Outcome :=
  if valid.isEmpty then
    ⟨1, out1, ds ++ [Diag.noValidImages], none, false, []⟩
  else if o.dry_run then
    ⟨0, out1 ++ [OutLine.dryRunHeader]
          ++ (enumFrom 1 valid).map (fun ip => OutLine.dryRunItem ip.1 ip.2),
      ds, none, false, []⟩
  else
    let pr := processAll fs o.quality valid
    let pageOut := if o.verbose then
        (enumFrom 1 (valid.take pr.1.length)).map (fun ip => OutLine.pageLine ip.1 ip.2)
      else []
    match pr.2 with
    | some p => ⟨1, out1 ++ pageOut, ds ++ [Diag.processingError p], none, false, []⟩
    | none =>
      if pr.1.isEmpty then
        ⟨1, out1 ++ pageOut, ds ++ [Diag.noneProcessed], none, false, []⟩
      else
        let odir := dirname (abspath fs o.output)
        if odir ≠ "" ∧ ¬ fs.pathExists odir then
          ⟨1, out1 ++ pageOut, ds ++ [Diag.outputDirMissing odir], none, false, []⟩
        else if fs.saveOk then
          if o.remove_source then
            let rm := removeAll fs valid
            if rm.2 then
              ⟨0, out1 ++ pageOut ++ [OutLine.successLine, OutLine.removedLine],
                ds, some pr.1, true, rm.1⟩
            else
              ⟨1, out1 ++ pageOut ++ [OutLine.successLine],
                ds ++ [Diag.savePdfError], some pr.1, true, rm.1⟩
          else
            ⟨0, out1 ++ pageOut ++ [OutLine.successLine], ds, some pr.1, true, []⟩
        else
          ⟨1, out1 ++ pageOut, ds ++ [Diag.savePdfError], some pr.1, false, []⟩

/-- Everything `main` does once the path list is collected
(src/pdfiler.py:112-170). -/
def afterCollect (fs : FS) (o : Opts) (images : List String)
    (out0 : List OutLine) : Outcome :=
  if images.isEmpty then
    ⟨1, out0, [Diag.noValidImages], none, false, []⟩
  else
    let vd := filterImages fs o.verbose images
    afterValid fs o vd.1 vd.2
      (out0 ++ (if o.verbose then [OutLine.checkedCount vd.1.length] else []))

/-- The click entry point `main` (src/pdfiler.py:70-170), as a pure function
from the world oracle and the parsed options to the observable outcome.
(Named `pdfilerMain` because Lean reserves `main` for an IO entry point.) -/
def pdfilerMain (fs : FS) (o : Opts) : Outcome :=
  match collectImages fs o with
  | CollectResult.usageErr d => ⟨1, [], [d], none, false, []⟩
  | CollectResult.collected _ images out0 => afterCollect fs o images out0

/-- The verbose per-page echo prefix of the transcoding loop. -/
def pageEcho (verbose : Bool) (valid : List String) (n : Nat) : List OutLine :=
  if verbose then
    (enumFrom 1 (valid.take n)).map (fun ip => OutLine.pageLine ip.1 ip.2)
  else []

/-- A concrete example world used to exercise the definitions: working
directory `/w` holding a valid RGBA PNG, a valid RGB JPEG, a GIF, a
non-image file and a second valid PNG, with distinct modification times. -/
def exFS : FS where
  isFile := fun p =>
    p ∈ ["/w/a.png", "/w/b.jpg", "/w/c.gif", "/w/bad.txt", "/w/d.png",
      "/w/noverify.png", "/w/nofmt.img"]
  openImage := fun p =>
    if p = "/w/a.png" then OpenResult.ok ⟨some "PNG", "RGBA", true, 1⟩
    else if p = "/w/b.jpg" then OpenResult.ok ⟨some "JPEG", "RGB", true, 2⟩
    else if p = "/w/c.gif" then OpenResult.ok ⟨some "GIF", "P", true, 3⟩
    else if p = "/w/d.png" then OpenResult.ok ⟨some "PNG", "RGB", true, 4⟩
    else if p = "/w/noverify.png" then OpenResult.ok ⟨some "PNG", "RGB", false, 5⟩
    else if p = "/w/nofmt.img" then OpenResult.ok ⟨none, "RGB", true, 6⟩
    else OpenResult.err PILError.unidentified
  mtime := fun p =>
    if p = "/w/a.png" then 5 else if p = "/w/b.jpg" then 2
    else if p = "/w/d.png" then 9 else 0
  listdir := fun _ => ["a.png", "b.jpg", "c.gif", "bad.txt", "d.png"]
  cwd := "/w"
  pathExists := fun _ => true
  saveOk := true
  removeOk := fun _ => true
  jpegRoundtrip := fun img q =>
    if img.mode = "RGB" ∨ img.mode = "L" ∨ img.mode = "CMYK" then
      Except.ok ⟨some "JPEG", img.mode, true, img.pix + 1000 + q⟩
    else Except.error ()
  size := fun _ => 100

/-- A degenerate example world in which every file is empty (zero bytes)
and `Image.open` therefore raises `UnidentifiedImageError` everywhere. -/
def exZeroFS : FS where
  isFile := fun _ => true
  openImage := fun _ => OpenResult.err PILError.unidentified
  mtime := fun _ => 0
  listdir := fun _ => []
  cwd := "/w"
  pathExists := fun _ => true
  saveOk := true
  removeOk := fun _ => true
  jpegRoundtrip := fun _ _ => Except.error ()
  size := fun _ => 0

/-! ### Helper lemmas about the stage functions -/

theorem enumFrom_length (s : Nat) (l : List String) :
    (enumFrom s l).length = l.length := by
  induction l generalizing s with
  | nil => rfl
  | cons p ps ih => simp [enumFrom, ih]

theorem enumFrom_get (s : Nat) (l : List String) (i : Nat)
    (hi : i < (enumFrom s l).length) (hi' : i < l.length) :
    (enumFrom s l).get ⟨i, hi⟩ = (s + i, l.get ⟨i, hi'⟩) := by
  induction l generalizing s i with
  | nil => cases hi'
  | cons p ps ih =>
    cases i with
    | zero => simp [enumFrom]
    | succ j =>
      have hj : j < (enumFrom (s + 1) ps).length := by
        simpa [enumFrom] using hi
      have hj' : j < ps.length := by simpa using hi'
      have := ih (s + 1) j hj hj'
      simpa [enumFrom, Nat.add_assoc, Nat.add_comm 1 j] using this

theorem filterImages_mem_fst (fs : FS) (v : Bool) (l : List String) (p : String) :
    p ∈ (filterImages fs v l).1 ↔
      p ∈ l ∧ fs.isFile p = true ∧ is_image_file fs p = true := by
  induction l with
  | nil => simp [filterImages]
  | cons q qs ih =>
    cases h1 : fs.isFile q with
    | false =>
      simp only [filterImages, h1, Bool.false_eq_true, if_false]
      rw [ih]
      constructor
      · rintro ⟨hmem, hf, hi⟩
        exact ⟨List.mem_cons_of_mem q hmem, hf, hi⟩
      · rintro ⟨hmem, hf, hi⟩
        rcases List.mem_cons.mp hmem with rfl | hmem'
        · rw [h1] at hf; cases hf
        · exact ⟨hmem', hf, hi⟩
    | true =>
      cases h2 : is_image_file fs q with
      | false =>
        simp only [filterImages, h1, h2, if_true, Bool.false_eq_true, if_false]
        rw [ih]
        constructor
        · rintro ⟨hmem, hf, hi⟩
          exact ⟨List.mem_cons_of_mem q hmem, hf, hi⟩
        · rintro ⟨hmem, hf, hi⟩
          rcases List.mem_cons.mp hmem with rfl | hmem'
          · rw [h2] at hi; cases hi
          · exact ⟨hmem', hf, hi⟩
      | true =>
        simp only [filterImages, h1, h2, if_true, List.mem_cons]
        constructor
        · rintro (rfl | hmem)
          · exact ⟨Or.inl rfl, h1, h2⟩
          · have := ih.mp hmem
            exact ⟨Or.inr this.1, this.2⟩
        · rintro ⟨rfl | hmem, hf, hi⟩
          · exact Or.inl rfl
          · exact Or.inr (ih.mpr ⟨hmem, hf, hi⟩)

theorem filterImages_snd_not_verbose (fs : FS) (l : List String) :
    (filterImages fs false l).2 = [] := by
  induction l with
  | nil => rfl
  | cons q qs ih =>
    cases h1 : fs.isFile q <;> [skip; cases h2 : is_image_file fs q] <;>
      simp [filterImages, h1, ih] <;> simp_all

theorem filterImages_snd_shape (fs : FS) (v : Bool) (l : List String) (d : Diag) :
    d ∈ (filterImages fs v l).2 →
      (∃ p, d = Diag.fileNotFound p) ∨ (∃ p, d = Diag.notAnImage p) := by
  induction l with
  | nil => intro h; simp [filterImages] at h
  | cons q qs ih =>
    intro h
    cases h1 : fs.isFile q with
    | false =>
      simp only [filterImages, h1, Bool.false_eq_true, if_false,
        List.mem_append] at h
      rcases h with h | h
      · cases v with
        | false => simp at h
        | true =>
          simp at h
          exact Or.inl ⟨q, h⟩
      · exact ih h
    | true =>
      cases h2 : is_image_file fs q with
      | false =>
        simp only [filterImages, h1, h2, if_true, Bool.false_eq_true, if_false,
          List.mem_append] at h
        rcases h with h | h
        · cases v with
          | false => simp at h
          | true =>
            simp at h
            exact Or.inr ⟨q, h⟩
        · exact ih h
      | true =>
        simp only [filterImages, h1, h2, if_true] at h
        exact ih h

theorem filterImages_diag_notFound (fs : FS) (l : List String) (p : String)
    (hmem : p ∈ l) (hf : fs.isFile p = false) :
    Diag.fileNotFound p ∈ (filterImages fs true l).2 := by
  induction l with
  | nil => cases hmem
  | cons q qs ih =>
    rcases List.mem_cons.mp hmem with rfl | hmem'
    · simp [filterImages, hf]
    · cases h1 : fs.isFile q with
      | false =>
        simp only [filterImages, h1, Bool.false_eq_true, if_false, if_true,
          List.mem_append]
        exact Or.inr (ih hmem')
      | true =>
        cases h2 : is_image_file fs q with
        | false =>
          simp only [filterImages, h1, h2, if_true, Bool.false_eq_true,
            if_false, List.mem_append]
          exact Or.inr (ih hmem')
        | true =>
          simpa [filterImages, h1, h2] using ih hmem'

theorem filterImages_diag_notImage (fs : FS) (l : List String) (p : String)
    (hmem : p ∈ l) (hf : fs.isFile p = true) (hi : is_image_file fs p = false) :
    Diag.notAnImage p ∈ (filterImages fs true l).2 := by
  induction l with
  | nil => cases hmem
  | cons q qs ih =>
    rcases List.mem_cons.mp hmem with rfl | hmem'
    · simp [filterImages, hf, hi]
    · cases h1 : fs.isFile q with
      | false =>
        simp only [filterImages, h1, Bool.false_eq_true, if_false, if_true,
          List.mem_append]
        exact Or.inr (ih hmem')
      | true =>
        cases h2 : is_image_file fs q with
        | false =>
          simp only [filterImages, h1, h2, if_true, Bool.false_eq_true,
            if_false, List.mem_append]
          exact Or.inr (ih hmem')
        | true =>
          simpa [filterImages, h1, h2] using ih hmem'

theorem processAll_ok (fs : FS) (q : Nat) (l : List String) (imgs : List ImageObj)
    (h : processAll fs q l = (imgs, none)) :
    List.Forall₂ (fun p i => process_image fs p q = Except.ok i) l imgs := by
  induction l generalizing imgs with
  | nil =>
    simp only [processAll] at h
    cases h
    exact List.Forall₂.nil
  | cons p ps ih =>
    simp only [processAll] at h
    cases hp : process_image fs p q with
    | error e =>
      rw [hp] at h
      cases h
    | ok img =>
      rw [hp] at h
      cases hrest : processAll fs q ps with
      | mk imgs' e =>
        rw [hrest] at h
        cases h
        exact List.Forall₂.cons hp (ih _ hrest)

theorem processAll_err (fs : FS) (q : Nat) (l : List String)
    (imgs : List ImageObj) (p : String)
    (h : processAll fs q l = (imgs, some p)) :
    ∃ pre post, l = pre ++ p :: post ∧ process_image fs p q = Except.error () ∧
      List.Forall₂ (fun r i => process_image fs r q = Except.ok i) pre imgs := by
  induction l generalizing imgs with
  | nil => simp [processAll] at h
  | cons r rs ih =>
    simp only [processAll] at h
    cases hp : process_image fs r q with
    | error e =>
      rw [hp] at h
      cases h
      exact ⟨[], rs, rfl, by cases e; exact hp, List.Forall₂.nil⟩
    | ok img =>
      rw [hp] at h
      cases hrest : processAll fs q rs with
      | mk imgs' e =>
        rw [hrest] at h
        cases h
        obtain ⟨pre, post, hsplit, herr, hfa⟩ := ih _ hrest
        exact ⟨r :: pre, post, by rw [hsplit]; rfl, herr, List.Forall₂.cons hp hfa⟩

theorem removeAll_all_ok (fs : FS) (l : List String)
    (h : ∀ p ∈ l, fs.removeOk p = true) :
    removeAll fs l = (l, true) := by
  induction l with
  | nil => rfl
  | cons p ps ih =>
    have hp := h p (List.mem_cons_self p ps)
    have hrest := ih (fun q hq => h q (List.mem_cons_of_mem p hq))
    simp [removeAll, hp, hrest]

theorem removeAll_err (fs : FS) (l : List String) (rem : List String)
    (h : removeAll fs l = (rem, false)) :
    ∃ p post, l = rem ++ p :: post ∧ fs.removeOk p = false ∧
      ∀ q ∈ rem, fs.removeOk q = true := by
  induction l generalizing rem with
  | nil => simp [removeAll] at h
  | cons p ps ih =>
    by_cases hp : fs.removeOk p
    · simp only [removeAll, hp, if_true] at h
      cases hrest : removeAll fs ps with
      | mk rem' ok =>
        rw [hrest] at h
        cases h
        obtain ⟨r, post, hsplit, hr, hall⟩ := ih _ hrest
        refine ⟨r, post, by rw [hsplit]; rfl, hr, ?_⟩
        intro q hq
        rcases List.mem_cons.mp hq with rfl | hq'
        · exact hp
        · exact hall q hq'
    · simp only [removeAll, hp, Bool.false_eq_true, if_false] at h
      cases h
      exact ⟨p, ps, rfl, by simpa using hp, by simp⟩

/-! ### Branch lemmas for `afterValid` and `pdfilerMain` -/

theorem isEmpty_false_of_ne_nil {α : Type} {l : List α} (h : l ≠ []) :
    l.isEmpty = false := by
  cases l with
  | nil => exact absurd rfl h
  | cons a as => rfl

theorem afterValid_empty (fs : FS) (o : Opts) (ds : List Diag)
    (out1 : List OutLine) :
    afterValid fs o [] ds out1 = ⟨1, out1, ds ++ [Diag.noValidImages], none, false, []⟩ := by
  simp [afterValid]

theorem afterValid_dryRun (fs : FS) (o : Opts) (valid : List String)
    (ds : List Diag) (out1 : List OutLine)
    (hv : valid ≠ []) (hd : o.dry_run = true) :
    afterValid fs o valid ds out1 =
      ⟨0, out1 ++ [OutLine.dryRunHeader]
            ++ (enumFrom 1 valid).map (fun ip => OutLine.dryRunItem ip.1 ip.2),
        ds, none, false, []⟩ := by
  simp [afterValid, isEmpty_false_of_ne_nil hv, hd]

theorem afterValid_procErr (fs : FS) (o : Opts) (valid : List String)
    (ds : List Diag) (out1 : List OutLine) (imgs : List ImageObj) (p : String)
    (hv : valid ≠ []) (hd : o.dry_run = false)
    (hpr : processAll fs o.quality valid = (imgs, some p)) :
    afterValid fs o valid ds out1 =
      ⟨1, out1 ++ pageEcho o.verbose valid imgs.length,
        ds ++ [Diag.processingError p], none, false, []⟩ := by
  simp [afterValid, isEmpty_false_of_ne_nil hv, hd, hpr, pageEcho]

theorem afterValid_saveFail (fs : FS) (o : Opts) (valid : List String)
    (ds : List Diag) (out1 : List OutLine) (imgs : List ImageObj)
    (hv : valid ≠ []) (hd : o.dry_run = false)
    (hpr : processAll fs o.quality valid = (imgs, none)) (hne : imgs ≠ [])
    (hdir : dirname (abspath fs o.output) = "" ∨
      fs.pathExists (dirname (abspath fs o.output)) = true)
    (hs : fs.saveOk = false) :
    afterValid fs o valid ds out1 =
      ⟨1, out1 ++ pageEcho o.verbose valid imgs.length,
        ds ++ [Diag.savePdfError], some imgs, false, []⟩ := by
  have hdir' : ¬ (dirname (abspath fs o.output) ≠ "" ∧
      ¬ fs.pathExists (dirname (abspath fs o.output)) = true) := by
    rcases hdir with h | h <;> simp [h]
  simp [afterValid, isEmpty_false_of_ne_nil hv, hd, hpr,
    isEmpty_false_of_ne_nil hne, hdir', hs, pageEcho]
  exact fun h1 => hdir.resolve_left h1

theorem afterValid_saved_noRemove (fs : FS) (o : Opts) (valid : List String)
    (ds : List Diag) (out1 : List OutLine) (imgs : List ImageObj)
    (hv : valid ≠ []) (hd : o.dry_run = false)
    (hpr : processAll fs o.quality valid = (imgs, none)) (hne : imgs ≠ [])
    (hdir : dirname (abspath fs o.output) = "" ∨
      fs.pathExists (dirname (abspath fs o.output)) = true)
    (hs : fs.saveOk = true) (hr : o.remove_source = false) :
    afterValid fs o valid ds out1 =
      ⟨0, out1 ++ pageEcho o.verbose valid imgs.length ++ [OutLine.successLine],
        ds, some imgs, true, []⟩ := by
  have hdir' : ¬ (dirname (abspath fs o.output) ≠ "" ∧
      ¬ fs.pathExists (dirname (abspath fs o.output)) = true) := by
    rcases hdir with h | h <;> simp [h]
  simp [afterValid, isEmpty_false_of_ne_nil hv, hd, hpr,
    isEmpty_false_of_ne_nil hne, hdir', hs, hr, pageEcho]
  exact fun h1 => hdir.resolve_left h1

theorem afterValid_saved_remove (fs : FS) (o : Opts) (valid : List String)
    (ds : List Diag) (out1 : List OutLine) (imgs : List ImageObj)
    (rem : List String) (rok : Bool)
    (hv : valid ≠ []) (hd : o.dry_run = false)
    (hpr : processAll fs o.quality valid = (imgs, none)) (hne : imgs ≠ [])
    (hdir : dirname (abspath fs o.output) = "" ∨
      fs.pathExists (dirname (abspath fs o.output)) = true)
    (hs : fs.saveOk = true) (hr : o.remove_source = true)
    (hrm : removeAll fs valid = (rem, rok)) :
    afterValid fs o valid ds out1 =
      if rok then
        ⟨0, out1 ++ pageEcho o.verbose valid imgs.length
              ++ [OutLine.successLine, OutLine.removedLine],
          ds, some imgs, true, rem⟩
      else
        ⟨1, out1 ++ pageEcho o.verbose valid imgs.length ++ [OutLine.successLine],
          ds ++ [Diag.savePdfError], some imgs, true, rem⟩ := by
  have hdir' : ¬ (dirname (abspath fs o.output) ≠ "" ∧
      ¬ fs.pathExists (dirname (abspath fs o.output)) = true) := by
    rcases hdir with h | h <;> simp [h]
  cases rok with
  | false =>
    simp [afterValid, isEmpty_false_of_ne_nil hv, hd, hpr,
      isEmpty_false_of_ne_nil hne, hdir', hs, hr, hrm, pageEcho]
    exact fun h1 => hdir.resolve_left h1
  | true =>
    simp [afterValid, isEmpty_false_of_ne_nil hv, hd, hpr,
      isEmpty_false_of_ne_nil hne, hdir', hs, hr, hrm, pageEcho]
    exact fun h1 => hdir.resolve_left h1

theorem afterValid_dirMissing (fs : FS) (o : Opts) (valid : List String)
    (ds : List Diag) (out1 : List OutLine) (imgs : List ImageObj)
    (hv : valid ≠ []) (hd : o.dry_run = false)
    (hpr : processAll fs o.quality valid = (imgs, none)) (hne : imgs ≠ [])
    (hdir : dirname (abspath fs o.output) ≠ "" ∧
      fs.pathExists (dirname (abspath fs o.output)) = false) :
    afterValid fs o valid ds out1 =
      ⟨1, out1 ++ pageEcho o.verbose valid imgs.length,
        ds ++ [Diag.outputDirMissing (dirname (abspath fs o.output))],
        none, false, []⟩ := by
  have hdir' : dirname (abspath fs o.output) ≠ "" ∧
      ¬ fs.pathExists (dirname (abspath fs o.output)) = true := by
    exact ⟨hdir.1, by rw [hdir.2]; exact Bool.false_ne_true⟩
  simp [afterValid, isEmpty_false_of_ne_nil hv, hd, hpr,
    isEmpty_false_of_ne_nil hne, hdir', pageEcho]

theorem processAll_length (fs : FS) (q : Nat) (l : List String)
    (imgs : List ImageObj) (h : processAll fs q l = (imgs, none)) :
    imgs.length = l.length :=
  ((processAll_ok fs q l imgs h).length_eq).symm

theorem processAll_ne_nil (fs : FS) (q : Nat) (l : List String)
    (imgs : List ImageObj) (h : processAll fs q l = (imgs, none))
    (hl : l ≠ []) : imgs ≠ [] := by
  intro hnil
  apply hl
  have := processAll_length fs q l imgs h
  rw [hnil] at this
  exact List.length_eq_zero.mp this.symm

theorem afterValid_assembled_inv (fs : FS) (o : Opts) (valid : List String)
    (ds : List Diag) (out1 : List OutLine) (pages : List ImageObj)
    (h : (afterValid fs o valid ds out1).assembled = some pages) :
    valid ≠ [] ∧ o.dry_run = false ∧
      processAll fs o.quality valid = (pages, none) ∧ pages ≠ [] := by
  by_cases hv : valid = []
  · rw [hv, afterValid_empty] at h
    cases h
  · by_cases hd : o.dry_run
    · rw [afterValid_dryRun fs o valid ds out1 hv hd] at h
      cases h
    · have hd' : o.dry_run = false := eq_false_of_ne_true hd
      rcases hpr : processAll fs o.quality valid with ⟨imgs, err⟩
      cases err with
      | some p =>
        rw [afterValid_procErr fs o valid ds out1 imgs p hv hd' hpr] at h
        cases h
      | none =>
        have hne : imgs ≠ [] := processAll_ne_nil fs o.quality valid imgs hpr hv
        by_cases hdir : dirname (abspath fs o.output) = "" ∨
            fs.pathExists (dirname (abspath fs o.output)) = true
        · by_cases hs : fs.saveOk
          · by_cases hr : o.remove_source
            · rcases hrm : removeAll fs valid with ⟨rem, rok⟩
              rw [afterValid_saved_remove fs o valid ds out1 imgs rem rok hv hd'
                hpr hne hdir hs hr hrm] at h
              cases rok with
              | false =>
                simp only [if_false, Bool.false_eq_true] at h
                cases h
                exact ⟨hv, hd', rfl, hne⟩
              | true =>
                simp only [if_true] at h
                cases h
                exact ⟨hv, hd', rfl, hne⟩
            · rw [afterValid_saved_noRemove fs o valid ds out1 imgs hv hd' hpr
                hne hdir hs (eq_false_of_ne_true hr)] at h
              cases h
              exact ⟨hv, hd', rfl, hne⟩
          · rw [afterValid_saveFail fs o valid ds out1 imgs hv hd' hpr hne hdir
              (eq_false_of_ne_true hs)] at h
            cases h
            exact ⟨hv, hd', rfl, hne⟩
        · have hdir' : dirname (abspath fs o.output) ≠ "" ∧
              fs.pathExists (dirname (abspath fs o.output)) = false := by
            push_neg at hdir
            exact ⟨hdir.1, eq_false_of_ne_true hdir.2⟩
          rw [afterValid_dirMissing fs o valid ds out1 imgs hv hd' hpr hne hdir'] at h
          cases h

theorem afterValid_pdfSaved_inv (fs : FS) (o : Opts) (valid : List String)
    (ds : List Diag) (out1 : List OutLine)
    (h : (afterValid fs o valid ds out1).pdfSaved = true) :
    valid ≠ [] ∧ o.dry_run = false ∧
      (processAll fs o.quality valid).2 = none ∧
      (processAll fs o.quality valid).1 ≠ [] ∧
      (dirname (abspath fs o.output) = "" ∨
        fs.pathExists (dirname (abspath fs o.output)) = true) ∧
      fs.saveOk = true := by
  by_cases hv : valid = []
  · rw [hv, afterValid_empty] at h
    cases h
  · by_cases hd : o.dry_run
    · rw [afterValid_dryRun fs o valid ds out1 hv hd] at h
      cases h
    · have hd' : o.dry_run = false := eq_false_of_ne_true hd
      rcases hpr : processAll fs o.quality valid with ⟨imgs, err⟩
      cases err with
      | some p =>
        rw [afterValid_procErr fs o valid ds out1 imgs p hv hd' hpr] at h
        cases h
      | none =>
        have hne : imgs ≠ [] := processAll_ne_nil fs o.quality valid imgs hpr hv
        by_cases hdir : dirname (abspath fs o.output) = "" ∨
            fs.pathExists (dirname (abspath fs o.output)) = true
        · by_cases hs : fs.saveOk
          · exact ⟨hv, hd', rfl, hne, hdir, hs⟩
          · rw [afterValid_saveFail fs o valid ds out1 imgs hv hd' hpr hne hdir
              (eq_false_of_ne_true hs)] at h
            cases h
        · have hdir' : dirname (abspath fs o.output) ≠ "" ∧
              fs.pathExists (dirname (abspath fs o.output)) = false := by
            push_neg at hdir
            exact ⟨hdir.1, eq_false_of_ne_true hdir.2⟩
          rw [afterValid_dirMissing fs o valid ds out1 imgs hv hd' hpr hne hdir'] at h
          cases h


theorem pdfilerMain_usage (fs : FS) (o : Opts) (d : Diag)
    (h : collectImages fs o = CollectResult.usageErr d) :
    pdfilerMain fs o = ⟨1, [], [d], none, false, []⟩ := by
  simp [pdfilerMain, h]

theorem pdfilerMain_eq_afterValid (fs : FS) (o : Opts) (sc : Bool)
    (images : List String) (out0 : List OutLine)
    (h1 : collectImages fs o = CollectResult.collected sc images out0)
    (h2 : images ≠ []) :
    pdfilerMain fs o =
      afterValid fs o (filterImages fs o.verbose images).1
        (filterImages fs o.verbose images).2
        (out0 ++ (if o.verbose then
          [OutLine.checkedCount (filterImages fs o.verbose images).1.length]
        else [])) := by
  simp [pdfilerMain, h1, afterCollect, isEmpty_false_of_ne_nil h2]

theorem collectImages_out_not_verbose (fs : FS) (o : Opts)
    (hv : o.verbose = false) (sc : Bool) (ps : List String) (out : List OutLine)
    (h : collectImages fs o = CollectResult.collected sc ps out) : out = [] := by
  rcases ho : o.input_dir with _ | d <;>
    simp only [collectImages, ho, hv] at h <;>
    split at h <;> first
      | (cases h; rfl)
      | cases h
      | (split at h <;> first
          | (cases h; rfl)
          | cases h
          | (split at h <;> (cases h <;> simp)))

theorem collectImages_scan_dir (fs : FS) (o : Opts) (d : String)
    (ho : o.input_dir = some d) (hne : o.images ≠ [])
    (habs : ∀ p ∈ o.images, isAbs p = false)
    (hhead : o.images.head? = some "auto-stamp") :
    collectImages fs o = CollectResult.collected true
      (get_images_from_directory fs d)
      (if o.verbose then
        [OutLine.foundInDir (get_images_from_directory fs d).length]
      else []) := by
  have h1 : o.images.isEmpty = false := isEmpty_false_of_ne_nil hne
  have h2 : o.images.any isAbs = false := by
    rw [List.any_eq_false]
    intro p hp
    rw [habs p hp]
    exact Bool.false_ne_true
  simp [collectImages, ho, h1, h2, hhead]

theorem collectImages_scan_cwd (fs : FS) (o : Opts)
    (ho : o.input_dir = none)
    (hhead : o.images.head? = some "auto-stamp") :
    collectImages fs o = CollectResult.collected true
      (get_images_from_directory fs fs.cwd)
      (if o.verbose then
        [OutLine.foundInDir (get_images_from_directory fs fs.cwd).length]
      else []) := by
  simp [collectImages, ho, hhead]

theorem collectImages_scanned_inv (fs : FS) (o : Opts)
    (ps : List String) (out : List OutLine)
    (h : collectImages fs o = CollectResult.collected true ps out) :
    o.images.head? = some "auto-stamp" := by
  rcases ho : o.input_dir with _ | d <;>
    simp only [collectImages, ho] at h <;>
    split at h <;> first
      | (cases h; assumption)
      | cases h
      | (split at h <;> first
          | (cases h; assumption)
          | cases h
          | (split at h <;> cases h <;> assumption))

theorem get_images_sorted (fs : FS) (d : String) :
    List.Pairwise (fun a b => fs.mtime a ≤ fs.mtime b)
      (get_images_from_directory fs d) := by
  unfold get_images_from_directory
  haveI : IsTotal String
      (fun a b => fs.mtime (joinPath d a) ≤ fs.mtime (joinPath d b)) :=
    ⟨fun a b => le_total _ _⟩
  haveI : IsTrans String
      (fun a b => fs.mtime (joinPath d a) ≤ fs.mtime (joinPath d b)) :=
    ⟨fun a b c hab hbc => le_trans hab hbc⟩
  have hs := List.sorted_insertionSort
    (fun a b => fs.mtime (joinPath d a) ≤ fs.mtime (joinPath d b))
    ((fs.listdir d).filter (fun f => is_image_file fs (joinPath d f)))
  exact List.Pairwise.map _ (fun a b hab => hab) hs

theorem get_images_mem (fs : FS) (d q : String) :
    q ∈ get_images_from_directory fs d ↔
      ∃ f, f ∈ fs.listdir d ∧ is_image_file fs (joinPath d f) = true ∧
        q = joinPath d f := by
  unfold get_images_from_directory
  simp only [List.mem_map]
  constructor
  · rintro ⟨f, hf, rfl⟩
    have hmem := (List.perm_insertionSort _ _).mem_iff.mp hf
    rw [List.mem_filter] at hmem
    exact ⟨f, hmem.1, hmem.2, rfl⟩
  · rintro ⟨f, hmem, him, rfl⟩
    refine ⟨f, ?_, rfl⟩
    rw [(List.perm_insertionSort _ _).mem_iff, List.mem_filter]
    exact ⟨hmem, him⟩

theorem pdfilerMain_empty_collected (fs : FS) (o : Opts) (sc : Bool)
    (out0 : List OutLine)
    (hc : collectImages fs o = CollectResult.collected sc [] out0) :
    pdfilerMain fs o = ⟨1, out0, [Diag.noValidImages], none, false, []⟩ := by
  simp [pdfilerMain, hc, afterCollect]

theorem afterValid_removed_nil (fs : FS) (o : Opts) (valid : List String)
    (ds : List Diag) (out1 : List OutLine)
    (h : (afterValid fs o valid ds out1).pdfSaved = false) :
    (afterValid fs o valid ds out1).removed = [] := by
  by_cases hv : valid = []
  · rw [hv, afterValid_empty]
  · by_cases hd : o.dry_run
    · rw [afterValid_dryRun fs o valid ds out1 hv hd]
    · have hd' : o.dry_run = false := eq_false_of_ne_true hd
      rcases hpr : processAll fs o.quality valid with ⟨imgs, err⟩
      cases err with
      | some p => rw [afterValid_procErr fs o valid ds out1 imgs p hv hd' hpr]
      | none =>
        have hne : imgs ≠ [] := processAll_ne_nil fs o.quality valid imgs hpr hv
        by_cases hdir : dirname (abspath fs o.output) = "" ∨
            fs.pathExists (dirname (abspath fs o.output)) = true
        · by_cases hs : fs.saveOk
          · by_cases hr : o.remove_source
            · rcases hrm : removeAll fs valid with ⟨rem, rok⟩
              rw [afterValid_saved_remove fs o valid ds out1 imgs rem rok hv hd'
                hpr hne hdir hs hr hrm] at h
              cases rok with
              | false => cases h
              | true => cases h
            · rw [afterValid_saved_noRemove fs o valid ds out1 imgs hv hd' hpr
                hne hdir hs (eq_false_of_ne_true hr)]
          · rw [afterValid_saveFail fs o valid ds out1 imgs hv hd' hpr hne hdir
              (eq_false_of_ne_true hs)]
        · have hdir' : dirname (abspath fs o.output) ≠ "" ∧
              fs.pathExists (dirname (abspath fs o.output)) = false := by
            push_neg at hdir
            exact ⟨hdir.1, eq_false_of_ne_true hdir.2⟩
          rw [afterValid_dirMissing fs o valid ds out1 imgs hv hd' hpr hne hdir']

theorem pdfilerMain_removed_nil (fs : FS) (o : Opts)
    (h : (pdfilerMain fs o).pdfSaved = false) :
    (pdfilerMain fs o).removed = [] := by
  rcases hc : collectImages fs o with d | ⟨sc, images, out0⟩
  · rw [pdfilerMain_usage fs o d hc]
  · by_cases hne : images = []
    · rw [hne] at hc
      rw [pdfilerMain_empty_collected fs o sc out0 hc]
    · rw [pdfilerMain_eq_afterValid fs o sc images out0 hc hne] at h ⊢
      exact afterValid_removed_nil _ _ _ _ _ h

theorem afterValid_stderr_shape (fs : FS) (o : Opts) (valid : List String)
    (ds : List Diag) (out1 : List OutLine) (hv : valid ≠ []) :
    (afterValid fs o valid ds out1).stderr = ds ∨
    ∃ x, (afterValid fs o valid ds out1).stderr = ds ++ [x] ∧
      x ≠ Diag.noValidImages := by
  by_cases hd : o.dry_run
  · rw [afterValid_dryRun fs o valid ds out1 hv hd]
    exact Or.inl rfl
  · have hd' : o.dry_run = false := eq_false_of_ne_true hd
    rcases hpr : processAll fs o.quality valid with ⟨imgs, err⟩
    cases err with
    | some p =>
      rw [afterValid_procErr fs o valid ds out1 imgs p hv hd' hpr]
      exact Or.inr ⟨Diag.processingError p, rfl, by simp⟩
    | none =>
      have hne : imgs ≠ [] := processAll_ne_nil fs o.quality valid imgs hpr hv
      by_cases hdir : dirname (abspath fs o.output) = "" ∨
          fs.pathExists (dirname (abspath fs o.output)) = true
      · by_cases hs : fs.saveOk
        · by_cases hr : o.remove_source
          · rcases hrm : removeAll fs valid with ⟨rem, rok⟩
            rw [afterValid_saved_remove fs o valid ds out1 imgs rem rok hv hd'
              hpr hne hdir hs hr hrm]
            cases rok with
            | false => exact Or.inr ⟨Diag.savePdfError, rfl, by simp⟩
            | true => exact Or.inl rfl
          · rw [afterValid_saved_noRemove fs o valid ds out1 imgs hv hd' hpr
              hne hdir hs (eq_false_of_ne_true hr)]
            exact Or.inl rfl
        · rw [afterValid_saveFail fs o valid ds out1 imgs hv hd' hpr hne hdir
            (eq_false_of_ne_true hs)]
          exact Or.inr ⟨Diag.savePdfError, rfl, by simp⟩
      · have hdir' : dirname (abspath fs o.output) ≠ "" ∧
            fs.pathExists (dirname (abspath fs o.output)) = false := by
          push_neg at hdir
          exact ⟨hdir.1, eq_false_of_ne_true hdir.2⟩
        rw [afterValid_dirMissing fs o valid ds out1 imgs hv hd' hpr hne hdir']
        exact Or.inr ⟨Diag.outputDirMissing (dirname (abspath fs o.output)), rfl, by simp⟩

/-! ### Claim theorems -/

/-- C7: If `-d` (input-dir) is supplied and any positional image argument is
an absolute path, the program reports a usage error and exits non-zero
before any validation, transcoding, write, or deletion takes place: the
whole outcome is exit code 1 with only the usage diagnostic, nothing
assembled, no PDF written, nothing removed. -/
theorem C7_abs_usage_error (fs : FS) (o : Opts) (d p : String)
    (h1 : o.input_dir = some d) (h2 : p ∈ o.images) (h3 : isAbs p = true) :
    pdfilerMain fs o = ⟨1, [], [Diag.usageAbsPath], none, false, []⟩ := by
  have hne : o.images.isEmpty = false :=
    isEmpty_false_of_ne_nil (List.ne_nil_of_mem h2)
  have hany : o.images.any isAbs = true := List.any_eq_true.mpr ⟨p, h2, h3⟩
  have hc : collectImages fs o = CollectResult.usageErr Diag.usageAbsPath := by
    simp [collectImages, h1, hne, hany]
  exact pdfilerMain_usage fs o _ hc

/-- Witness for C7 at a concrete world and options. -/
theorem C7_witness :
    pdfilerMain exFS
      (⟨["/w/a.png"], some "/w", 80, "/out/g.pdf", false, false, false⟩ : Opts) =
      ⟨1, [], [Diag.usageAbsPath], none, false, []⟩ :=
  C7_abs_usage_error exFS _ "/w" "/w/a.png" rfl (by decide) (by decide)

/-- C3: the Validator `is_image_file` is total (the `try/except` catches
every raised `UnidentifiedImageError`/`IOError`, so no exception escapes)
and rejects, rather than crashes on: a file whose decode raises, a file
failing integrity verification, a GIF, a file whose decoded format is
unnameable (`None`), a filesystem-level error, and — in any world where
PIL's behavior on empty data holds (zero-byte files raise
`UnidentifiedImageError`) — a zero-byte file. -/
theorem C3_validator_total :
    (∀ fs p e, is_image_file_exc fs p = Except.error e → is_image_file fs p = false)
  ∧ (∀ fs p e, FS.openImage fs p = OpenResult.err e → is_image_file fs p = false)
  ∧ (∀ fs p img, FS.openImage fs p = OpenResult.ok img → img.verifyOk = false →
      is_image_file fs p = false)
  ∧ (∀ fs p img, FS.openImage fs p = OpenResult.ok img → img.format = some "GIF" →
      is_image_file fs p = false)
  ∧ (∀ fs p img, FS.openImage fs p = OpenResult.ok img → img.format = none →
      is_image_file fs p = false)
  ∧ (∀ fs p,
      (∀ q, FS.size fs q = 0 → FS.openImage fs q = OpenResult.err PILError.unidentified) →
      FS.size fs p = 0 → is_image_file fs p = false) := by
  refine ⟨?_, ?_, ?_, ?_, ?_, ?_⟩
  · intro fs p e h
    simp [is_image_file, h]
  · intro fs p e h
    simp [is_image_file, is_image_file_exc, h]
  · intro fs p img h hverify
    simp [is_image_file, is_image_file_exc, h, hverify]
  · intro fs p img h hfmt
    cases hv : img.verifyOk with
    | false => simp [is_image_file, is_image_file_exc, h, hv]
    | true => simp [is_image_file, is_image_file_exc, h, hv, hfmt]
  · intro fs p img h hfmt
    cases hv : img.verifyOk with
    | false => simp [is_image_file, is_image_file_exc, h, hv]
    | true => simp [is_image_file, is_image_file_exc, h, hv, hfmt]
  · intro fs p hall hsz
    simp [is_image_file, is_image_file_exc, hall p hsz]

/-- Witness for C3 at concrete worlds: an undecodable file, a file failing
verification, a GIF, a format-less decode, and a zero-byte file are all
rejected with `false`, not a crash. -/
theorem C3_witness :
    is_image_file exFS "/w/bad.txt" = false ∧
    is_image_file exFS "/w/noverify.png" = false ∧
    is_image_file exFS "/w/c.gif" = false ∧
    is_image_file exFS "/w/nofmt.img" = false ∧
    is_image_file exZeroFS "/w/zero.png" = false :=
  ⟨C3_validator_total.2.1 exFS "/w/bad.txt" PILError.unidentified (by decide),
   C3_validator_total.2.2.1 exFS "/w/noverify.png" ⟨some "PNG", "RGB", false, 5⟩
     (by decide) rfl,
   C3_validator_total.2.2.2.1 exFS "/w/c.gif" ⟨some "GIF", "P", true, 3⟩
     (by decide) rfl,
   C3_validator_total.2.2.2.2.1 exFS "/w/nofmt.img" ⟨none, "RGB", true, 6⟩
     (by decide) rfl,
   C3_validator_total.2.2.2.2.2 exZeroFS "/w/zero.png" (fun q _ => rfl) rfl⟩

/-- C4 counterexample: a decoded image of mode "LA" (grayscale plus alpha)
has an alpha channel, yet the conversion step that runs before the lossy
re-encode leaves it untouched — the source only converts modes 'RGBA' and
'P' — refuting the claim that every alpha-bearing or palette decode is
converted to the plain three-channel model before the re-encode. -/
theorem C4_counterexample :
    hasAlpha (ImageObj.mk (some "PNG") "LA" true 7).mode = true ∧
    preEncode (ImageObj.mk (some "PNG") "LA" true 7) =
      ImageObj.mk (some "PNG") "LA" true 7 ∧
    (preEncode (ImageObj.mk (some "PNG") "LA" true 7)).mode ≠ "RGB" := by
  decide

/-- C4 (amended): whenever the Transcoder returns an image it is in the
plain three-channel mode "RGB"; the conversion before the optional lossy
re-encode happens exactly for decoded modes 'RGBA' and 'P' (where the alpha
channel/palette is discarded by `convert('RGB')`), while every other mode —
including the alpha-bearing 'LA'/'PA' — is passed to the re-encode
unconverted. -/
theorem C4_transcoder_rgb :
    (∀ img : ImageObj, (img.mode = "RGBA" ∨ img.mode = "P") →
      preEncode img = convertRGB img ∧ (preEncode img).mode = "RGB")
  ∧ (∀ img : ImageObj, img.mode ≠ "RGBA" → img.mode ≠ "P" → preEncode img = img)
  ∧ (∀ fs p q img, process_image fs p q = Except.ok img → img.mode = "RGB") := by
  refine ⟨?_, ?_, ?_⟩
  · intro img h
    rw [preEncode, if_pos h]
    exact ⟨rfl, rfl⟩
  · intro img h1 h2
    rw [preEncode, if_neg]
    rintro (h | h)
    · exact h1 h
    · exact h2 h
  · intro fs p q img h
    cases ho : fs.openImage p with
    | err e =>
      simp only [process_image, ho] at h
      cases h
    | ok img0 =>
      simp only [process_image, ho] at h
      cases hj : (if q ≠ 0 then fs.jpegRoundtrip (preEncode img0) q
          else Except.ok (preEncode img0)) with
      | error e => rw [hj] at h; cases h
      | ok img2 =>
        rw [hj] at h
        cases h
        by_cases hm : img2.mode = "RGB"
        · rw [if_pos hm]; exact hm
        · rw [if_neg hm]; rfl

/-- Witness for C4 (amended) at concrete images and a concrete world. -/
theorem C4_witness :
    preEncode (ImageObj.mk (some "PNG") "RGBA" true 1) =
      convertRGB (ImageObj.mk (some "PNG") "RGBA" true 1) ∧
    preEncode (ImageObj.mk (some "JPEG") "RGB" true 2) =
      ImageObj.mk (some "JPEG") "RGB" true 2 ∧
    (ImageObj.mk (some "JPEG") "RGB" true 1081).mode = "RGB" :=
  ⟨(C4_transcoder_rgb.1 (ImageObj.mk (some "PNG") "RGBA" true 1) (Or.inl rfl)).1,
   C4_transcoder_rgb.2.1 (ImageObj.mk (some "JPEG") "RGB" true 2)
     (by decide) (by decide),
   C4_transcoder_rgb.2.2 exFS "/w/a.png" 80 (ImageObj.mk (some "JPEG") "RGB" true 1081)
     (by decide)⟩

/-- C1: for every run that reaches assembly (some page sequence is handed to
the PDF `save` call), that sequence has length ≥ 1 and corresponds
one-to-one, in order, to the Validated Image Set (the validation filter's
output): the page count equals the number of validated images and page `i`
is the transcode of validated path `i`. -/
theorem C1_assembly_matches_validated (fs : FS) (o : Opts) (sc : Bool)
    (images valid : List String) (out0 : List OutLine) (ds : List Diag)
    (pages : List ImageObj)
    (h1 : collectImages fs o = CollectResult.collected sc images out0)
    (h2 : filterImages fs o.verbose images = (valid, ds))
    (h3 : (pdfilerMain fs o).assembled = some pages) :
    1 ≤ pages.length ∧ pages.length = valid.length ∧
      List.Forall₂ (fun p i => process_image fs p o.quality = Except.ok i)
        valid pages := by
  have hfst : (filterImages fs o.verbose images).1 = valid := by rw [h2]
  have hsnd : (filterImages fs o.verbose images).2 = ds := by rw [h2]
  by_cases hne : images = []
  · rw [hne] at h1
    rw [pdfilerMain_empty_collected fs o sc out0 h1] at h3
    cases h3
  · rw [pdfilerMain_eq_afterValid fs o sc images out0 h1 hne, hfst, hsnd] at h3
    obtain ⟨hv, hd, hpr, hnp⟩ := afterValid_assembled_inv _ _ _ _ _ _ h3
    have hfa := processAll_ok fs o.quality valid pages hpr
    exact ⟨List.length_pos.mpr hnp, hfa.length_eq.symm, hfa⟩

/-- Witness for C1 at a concrete run with two validated images. -/
theorem C1_witness :
    1 ≤ ([⟨some "JPEG", "RGB", true, 1081⟩,
          ⟨some "JPEG", "RGB", true, 1082⟩] : List ImageObj).length ∧
    ([⟨some "JPEG", "RGB", true, 1081⟩,
      ⟨some "JPEG", "RGB", true, 1082⟩] : List ImageObj).length =
      (["/w/a.png", "/w/b.jpg"] : List String).length ∧
    List.Forall₂ (fun p i => process_image exFS p
        (⟨["a.png", "b.jpg"], some "/w", 80, "/out/g.pdf",
          false, false, false⟩ : Opts).quality = Except.ok i)
      ["/w/a.png", "/w/b.jpg"]
      [⟨some "JPEG", "RGB", true, 1081⟩, ⟨some "JPEG", "RGB", true, 1082⟩] :=
  C1_assembly_matches_validated exFS
    (⟨["a.png", "b.jpg"], some "/w", 80, "/out/g.pdf", false, false, false⟩ : Opts)
    false ["/w/a.png", "/w/b.jpg"] ["/w/a.png", "/w/b.jpg"] [] []
    [⟨some "JPEG", "RGB", true, 1081⟩, ⟨some "JPEG", "RGB", true, 1082⟩]
    (by decide) (by decide) (by decide)

/-- C8: a decode/encode error while transcoding an already-validated path is
fatal to the whole run: exit code 1 with the processing diagnostic, nothing
assembled, no PDF written, nothing deleted; the failing path really fails
(it is not silently skipped), and only the paths strictly before it were
processed. -/
theorem C8_transcode_fatal (fs : FS) (o : Opts) (sc : Bool)
    (images valid : List String) (out0 : List OutLine) (ds : List Diag)
    (imgs : List ImageObj) (p : String)
    (h1 : collectImages fs o = CollectResult.collected sc images out0)
    (h2 : images ≠ [])
    (h3 : filterImages fs o.verbose images = (valid, ds))
    (h4 : o.dry_run = false)
    (h5 : processAll fs o.quality valid = (imgs, some p)) :
    (pdfilerMain fs o).exitCode = 1 ∧
    (pdfilerMain fs o).stderr = ds ++ [Diag.processingError p] ∧
    (pdfilerMain fs o).assembled = none ∧
    (pdfilerMain fs o).pdfSaved = false ∧
    (pdfilerMain fs o).removed = [] ∧
    process_image fs p o.quality = Except.error () ∧
    ∃ pre post, valid = pre ++ p :: post ∧ imgs.length = pre.length ∧
      List.Forall₂ (fun r i => process_image fs r o.quality = Except.ok i)
        pre imgs := by
  have hfst : (filterImages fs o.verbose images).1 = valid := by rw [h3]
  have hsnd : (filterImages fs o.verbose images).2 = ds := by rw [h3]
  have hv : valid ≠ [] := by
    intro h0
    rw [h0] at h5
    simp [processAll] at h5
  rw [pdfilerMain_eq_afterValid fs o sc images out0 h1 h2, hfst, hsnd,
    afterValid_procErr fs o valid ds _ imgs p hv h4 h5]
  obtain ⟨pre, post, hsplit, herrp, hfa⟩ :=
    processAll_err fs o.quality valid imgs p h5
  exact ⟨rfl, rfl, rfl, rfl, rfl, herrp,
    pre, post, hsplit, hfa.length_eq.symm, hfa⟩

/-- Witness for C8: a concrete world whose JPEG codec rejects the second
validated image; the run dies there with only the first image processed. -/
theorem C8_witness :
    (pdfilerMain
      ({ exFS with jpegRoundtrip := fun img q =>
          if img.pix = 2 then Except.ok ⟨some "JPEG", "RGB", true, 3000⟩
          else Except.error () })
      (⟨["b.jpg", "a.png"], some "/w", 80, "/out/g.pdf",
        false, false, false⟩ : Opts)).exitCode = 1 ∧
    (pdfilerMain
      ({ exFS with jpegRoundtrip := fun img q =>
          if img.pix = 2 then Except.ok ⟨some "JPEG", "RGB", true, 3000⟩
          else Except.error () })
      (⟨["b.jpg", "a.png"], some "/w", 80, "/out/g.pdf",
        false, false, false⟩ : Opts)).stderr =
      [] ++ [Diag.processingError "/w/a.png"] ∧
    (pdfilerMain
      ({ exFS with jpegRoundtrip := fun img q =>
          if img.pix = 2 then Except.ok ⟨some "JPEG", "RGB", true, 3000⟩
          else Except.error () })
      (⟨["b.jpg", "a.png"], some "/w", 80, "/out/g.pdf",
        false, false, false⟩ : Opts)).assembled = none ∧
    (pdfilerMain
      ({ exFS with jpegRoundtrip := fun img q =>
          if img.pix = 2 then Except.ok ⟨some "JPEG", "RGB", true, 3000⟩
          else Except.error () })
      (⟨["b.jpg", "a.png"], some "/w", 80, "/out/g.pdf",
        false, false, false⟩ : Opts)).pdfSaved = false ∧
    (pdfilerMain
      ({ exFS with jpegRoundtrip := fun img q =>
          if img.pix = 2 then Except.ok ⟨some "JPEG", "RGB", true, 3000⟩
          else Except.error () })
      (⟨["b.jpg", "a.png"], some "/w", 80, "/out/g.pdf",
        false, false, false⟩ : Opts)).removed = [] ∧
    process_image
      ({ exFS with jpegRoundtrip := fun img q =>
          if img.pix = 2 then Except.ok ⟨some "JPEG", "RGB", true, 3000⟩
          else Except.error () })
      "/w/a.png" 80 = Except.error () :=
  have H := C8_transcode_fatal
    ({ exFS with jpegRoundtrip := fun img q =>
        if img.pix = 2 then Except.ok ⟨some "JPEG", "RGB", true, 3000⟩
        else Except.error () })
    (⟨["b.jpg", "a.png"], some "/w", 80, "/out/g.pdf", false, false, false⟩ : Opts)
    false ["/w/b.jpg", "/w/a.png"] ["/w/b.jpg", "/w/a.png"] [] []
    [⟨some "JPEG", "RGB", true, 3000⟩] "/w/a.png"
    (by decide) (by decide) (by decide) rfl (by decide)
  ⟨H.1, H.2.1, H.2.2.1, H.2.2.2.1, H.2.2.2.2.1, H.2.2.2.2.2.1⟩

/-- C2 counterexample: directory-scan mode is NOT triggered exactly when
`auto-stamp` is the *sole* positional argument — the source only tests the
*first* argument (`images[0] == "auto-stamp"`).  With arguments
`["auto-stamp", "b.jpg"]` (not a sole sentinel) the collector still runs the
directory scan of the working directory, ignoring `b.jpg`. -/
theorem C2_counterexample :
    collectImages exFS
      (⟨["auto-stamp", "b.jpg"], none, 80, "/out/g.pdf",
        false, false, false⟩ : Opts) =
      CollectResult.collected true ["/w/b.jpg", "/w/a.png", "/w/d.png"] [] ∧
    (⟨["auto-stamp", "b.jpg"], none, 80, "/out/g.pdf",
      false, false, false⟩ : Opts).images ≠ ["auto-stamp"] := by
  decide

/-- C2 (amended): directory-scan mode is triggered exactly when the *first*
positional argument is the sentinel `auto-stamp` (with `-d`, additionally
requiring a non-empty argument list with no absolute path; any further
arguments are ignored).  In that mode the collector lists the base directory
(with `-d`) or the current working directory (without), and returns exactly
the entries the Validator accepts as images, sorted ascending by
file-modification time, regardless of filename. -/
theorem C2_auto_stamp_scan :
    (∀ fs (o : Opts) d, o.input_dir = some d → o.images ≠ [] →
      (∀ p ∈ o.images, isAbs p = false) →
      o.images.head? = some "auto-stamp" →
      collectImages fs o = CollectResult.collected true
        (get_images_from_directory fs d)
        (if o.verbose then
          [OutLine.foundInDir (get_images_from_directory fs d).length]
        else []))
  ∧ (∀ fs (o : Opts), o.input_dir = none →
      o.images.head? = some "auto-stamp" →
      collectImages fs o = CollectResult.collected true
        (get_images_from_directory fs fs.cwd)
        (if o.verbose then
          [OutLine.foundInDir (get_images_from_directory fs fs.cwd).length]
        else []))
  ∧ (∀ fs (o : Opts) ps out,
      collectImages fs o = CollectResult.collected true ps out →
      o.images.head? = some "auto-stamp")
  ∧ (∀ fs d, List.Pairwise (fun a b => fs.mtime a ≤ fs.mtime b)
      (get_images_from_directory fs d))
  ∧ (∀ fs d q, q ∈ get_images_from_directory fs d ↔
      ∃ f, f ∈ fs.listdir d ∧ is_image_file fs (joinPath d f) = true ∧
        q = joinPath d f) :=
  ⟨fun fs o d h1 h2 h3 h4 => collectImages_scan_dir fs o d h1 h2 h3 h4,
   fun fs o h1 h2 => collectImages_scan_cwd fs o h1 h2,
   fun fs o ps out h => collectImages_scanned_inv fs o ps out h,
   fun fs d => get_images_sorted fs d,
   fun fs d q => get_images_mem fs d q⟩

/-- Witness for C2 (amended) at a concrete world: the scan triggers both
with and without `-d`, and the trigger implies the sentinel leads the
argument list. -/
theorem C2_witness :
    collectImages exFS
      (⟨["auto-stamp"], some "/w", 80, "/out/g.pdf", false, false, false⟩ : Opts) =
      CollectResult.collected true (get_images_from_directory exFS "/w") [] ∧
    collectImages exFS
      (⟨["auto-stamp"], none, 80, "/out/g.pdf", false, false, false⟩ : Opts) =
      CollectResult.collected true (get_images_from_directory exFS exFS.cwd) [] ∧
    (⟨["auto-stamp", "b.jpg"], none, 80, "/out/g.pdf",
      false, false, false⟩ : Opts).images.head? = some "auto-stamp" :=
  ⟨C2_auto_stamp_scan.1 exFS
      (⟨["auto-stamp"], some "/w", 80, "/out/g.pdf", false, false, false⟩ : Opts)
      "/w" rfl (by decide) (by decide) rfl,
   C2_auto_stamp_scan.2.1 exFS
      (⟨["auto-stamp"], none, 80, "/out/g.pdf", false, false, false⟩ : Opts)
      rfl rfl,
   C2_auto_stamp_scan.2.2.1 exFS
      (⟨["auto-stamp", "b.jpg"], none, 80, "/out/g.pdf", false, false, false⟩ : Opts)
      ["/w/b.jpg", "/w/a.png", "/w/d.png"] [] (by decide)⟩

theorem enumFrom_getElem (s : Nat) (l : List String) (i : Nat)
    (hi : i < (enumFrom s l).length) (hi' : i < l.length) :
    (enumFrom s l)[i] = (s + i, l[i]) := by
  have h := enumFrom_get s l i hi hi'
  simpa [List.get_eq_getElem] using h

/-- C5 counterexample: with `--dry-run` and exactly one validated image the
program does not print exactly 1 line — it prints 2: a header line first,
then the single indexed line; so the i-th printed line is not the i-th
indexed entry. -/
theorem C5_counterexample :
    (pdfilerMain exFS (⟨["b.jpg"], some "/w", 80, "/out/g.pdf",
        true, false, false⟩ : Opts)).stdout =
      [OutLine.dryRunHeader, OutLine.dryRunItem 1 "/w/b.jpg"] ∧
    ¬ ((pdfilerMain exFS (⟨["b.jpg"], some "/w", 80, "/out/g.pdf",
        true, false, false⟩ : Opts)).stdout.length = 1) ∧
    (pdfilerMain exFS (⟨["b.jpg"], some "/w", 80, "/out/g.pdf",
        true, false, false⟩ : Opts)).exitCode = 0 ∧
    (pdfilerMain exFS (⟨["b.jpg"], some "/w", 80, "/out/g.pdf",
        true, false, false⟩ : Opts)).assembled = none ∧
    (pdfilerMain exFS (⟨["b.jpg"], some "/w", 80, "/out/g.pdf",
        true, false, false⟩ : Opts)).pdfSaved = false := by
  decide

/-- C5 (amended): when `--dry-run` is given (without verbose) and N images
pass validation, the program prints a header line followed by exactly N
lines, the i-th consisting of the 1-based index i and the i-th validated
path, exits with status 0, and creates no output file and removes
nothing. -/
theorem C5_dry_run (fs : FS) (o : Opts) (sc : Bool)
    (images valid : List String) (out0 : List OutLine) (ds : List Diag)
    (h1 : collectImages fs o = CollectResult.collected sc images out0)
    (h2 : images ≠ [])
    (h3 : filterImages fs o.verbose images = (valid, ds))
    (h4 : valid ≠ [])
    (h5 : o.dry_run = true)
    (h6 : o.verbose = false) :
    pdfilerMain fs o = ⟨0,
      OutLine.dryRunHeader ::
        (enumFrom 1 valid).map (fun ip => OutLine.dryRunItem ip.1 ip.2),
      [], none, false, []⟩ ∧
    ((enumFrom 1 valid).map
      (fun ip => OutLine.dryRunItem ip.1 ip.2)).length = valid.length ∧
    (∀ i (hi : i < valid.length)
        (hi' : i < ((enumFrom 1 valid).map
          (fun ip => OutLine.dryRunItem ip.1 ip.2)).length),
      ((enumFrom 1 valid).map (fun ip => OutLine.dryRunItem ip.1 ip.2))[i] =
        OutLine.dryRunItem (1 + i) valid[i]) := by
  have hfst : (filterImages fs o.verbose images).1 = valid := by rw [h3]
  have hsnd : (filterImages fs o.verbose images).2 = ds := by rw [h3]
  have hout0 : out0 = [] :=
    collectImages_out_not_verbose fs o h6 sc images out0 h1
  have hds : ds = [] := by
    rw [← hsnd, h6]
    exact filterImages_snd_not_verbose fs images
  refine ⟨?_, ?_, ?_⟩
  · rw [pdfilerMain_eq_afterValid fs o sc images out0 h1 h2, hfst, hsnd,
      afterValid_dryRun fs o valid ds _ h4 h5, hds, hout0, h6]
    simp
  · rw [List.length_map, enumFrom_length]
  · intro i hi hi'
    have hie : i < (enumFrom 1 valid).length := by
      rw [enumFrom_length]
      exact hi
    rw [List.getElem_map, enumFrom_getElem 1 valid i hie hi]

/-- Witness for C5 (amended) at a concrete dry run over two validated
images: header plus lines `1 --- /w/b.jpg` and `2 --- /w/a.png`. -/
theorem C5_witness :
    pdfilerMain exFS (⟨["b.jpg", "a.png"], some "/w", 80, "/out/g.pdf",
        true, false, false⟩ : Opts) = ⟨0,
      OutLine.dryRunHeader ::
        (enumFrom 1 ["/w/b.jpg", "/w/a.png"]).map
          (fun ip => OutLine.dryRunItem ip.1 ip.2),
      [], none, false, []⟩ ∧
    ((enumFrom 1 ["/w/b.jpg", "/w/a.png"]).map
      (fun ip => OutLine.dryRunItem ip.1 ip.2)).length =
      (["/w/b.jpg", "/w/a.png"] : List String).length ∧
    ((enumFrom 1 ["/w/b.jpg", "/w/a.png"]).map
      (fun ip => OutLine.dryRunItem ip.1 ip.2))[0] =
      OutLine.dryRunItem 1 "/w/b.jpg" ∧
    ((enumFrom 1 ["/w/b.jpg", "/w/a.png"]).map
      (fun ip => OutLine.dryRunItem ip.1 ip.2))[1] =
      OutLine.dryRunItem 2 "/w/a.png" := by
  have H := C5_dry_run exFS
    (⟨["b.jpg", "a.png"], some "/w", 80, "/out/g.pdf", true, false, false⟩ : Opts)
    false ["/w/b.jpg", "/w/a.png"] ["/w/b.jpg", "/w/a.png"] [] []
    (by decide) (by decide) (by decide) (by decide) rfl rfl
  exact ⟨H.1, H.2.1, H.2.2 0 (by decide) (by decide), H.2.2 1 (by decide) (by decide)⟩

/-- C6: every collected path that fails the existence check or image
validation is dropped from the working set without aborting the run; the
per-file diagnostic is emitted if and only if verbose is set; and the run
aborts at the filter (non-zero exit, nothing assembled, written, or
removed, with the empty-set diagnostic) exactly when zero paths survive. -/
theorem C6_soft_rejection (fs : FS) (o : Opts) (sc : Bool)
    (images : List String) (out0 : List OutLine)
    (h1 : collectImages fs o = CollectResult.collected sc images out0)
    (h2 : images ≠ []) :
    (∀ p ∈ images, (fs.isFile p = false ∨ is_image_file fs p = false) →
      p ∉ (filterImages fs o.verbose images).1)
  ∧ (∀ p ∈ images, fs.isFile p = false →
      (Diag.fileNotFound p ∈ (filterImages fs o.verbose images).2 ↔
        o.verbose = true))
  ∧ (∀ p ∈ images, fs.isFile p = true → is_image_file fs p = false →
      (Diag.notAnImage p ∈ (filterImages fs o.verbose images).2 ↔
        o.verbose = true))
  ∧ ((filterImages fs o.verbose images).1 = [] →
      (pdfilerMain fs o).exitCode = 1 ∧ (pdfilerMain fs o).assembled = none ∧
      (pdfilerMain fs o).pdfSaved = false ∧ (pdfilerMain fs o).removed = [] ∧
      Diag.noValidImages ∈ (pdfilerMain fs o).stderr)
  ∧ ((filterImages fs o.verbose images).1 ≠ [] →
      Diag.noValidImages ∉ (pdfilerMain fs o).stderr) := by
  refine ⟨?_, ?_, ?_, ?_, ?_⟩
  · intro p hp hbad hmem
    rw [filterImages_mem_fst] at hmem
    rcases hbad with hf | hi
    · rw [hf] at hmem
      cases hmem.2.1
    · rw [hi] at hmem
      cases hmem.2.2
  · intro p hp hf
    constructor
    · intro hmem
      cases hverb : o.verbose with
      | true => rfl
      | false =>
        rw [hverb, filterImages_snd_not_verbose] at hmem
        cases hmem
    · intro hverb
      rw [hverb]
      exact filterImages_diag_notFound fs images p hp hf
  · intro p hp hf hi
    constructor
    · intro hmem
      cases hverb : o.verbose with
      | true => rfl
      | false =>
        rw [hverb, filterImages_snd_not_verbose] at hmem
        cases hmem
    · intro hverb
      rw [hverb]
      exact filterImages_diag_notImage fs images p hp hf hi
  · intro hnil
    rw [pdfilerMain_eq_afterValid fs o sc images out0 h1 h2, hnil,
      afterValid_empty]
    exact ⟨rfl, rfl, rfl, rfl, by simp⟩
  · intro hnnil
    rw [pdfilerMain_eq_afterValid fs o sc images out0 h1 h2]
    rcases afterValid_stderr_shape fs o (filterImages fs o.verbose images).1
        (filterImages fs o.verbose images).2 _ hnnil with hsh | ⟨x, hsh, hx⟩
    · rw [hsh]
      intro hmem
      rcases filterImages_snd_shape fs o.verbose images _ hmem with ⟨p, hp⟩ | ⟨p, hp⟩
      · cases hp
      · cases hp
    · rw [hsh]
      intro hmem
      rcases List.mem_append.mp hmem with hmem' | hmem'
      · rcases filterImages_snd_shape fs o.verbose images _ hmem' with ⟨p, hp⟩ | ⟨p, hp⟩
        · cases hp
        · cases hp
      · rcases List.mem_singleton.mp hmem' with rfl
        exact hx rfl

/-- Witness for C6 at concrete runs: a verbose run where a GIF and a
missing file are dropped with diagnostics but the run proceeds, and a run
whose working set empties and aborts. -/
theorem C6_witness :
    ("/w/c.gif" ∉ (filterImages exFS true
      ["/w/a.png", "/w/c.gif", "/w/missing.x"]).1) ∧
    Diag.fileNotFound "/w/missing.x" ∈ (filterImages exFS true
      ["/w/a.png", "/w/c.gif", "/w/missing.x"]).2 ∧
    Diag.notAnImage "/w/c.gif" ∈ (filterImages exFS true
      ["/w/a.png", "/w/c.gif", "/w/missing.x"]).2 ∧
    Diag.noValidImages ∉ (pdfilerMain exFS
      (⟨["a.png", "c.gif", "missing.x"], some "/w", 80, "/out/g.pdf",
        false, false, true⟩ : Opts)).stderr ∧
    (pdfilerMain exFS
      (⟨["bad.txt"], some "/w", 80, "/out/g.pdf",
        false, false, false⟩ : Opts)).exitCode = 1 ∧
    Diag.noValidImages ∈ (pdfilerMain exFS
      (⟨["bad.txt"], some "/w", 80, "/out/g.pdf",
        false, false, false⟩ : Opts)).stderr := by
  have H := C6_soft_rejection exFS
    (⟨["a.png", "c.gif", "missing.x"], some "/w", 80, "/out/g.pdf",
      false, false, true⟩ : Opts)
    false ["/w/a.png", "/w/c.gif", "/w/missing.x"] []
    (by decide) (by decide)
  have H2 := C6_soft_rejection exFS
    (⟨["bad.txt"], some "/w", 80, "/out/g.pdf", false, false, false⟩ : Opts)
    false ["/w/bad.txt"] [] (by decide) (by decide)
  exact ⟨H.1 "/w/c.gif" (by decide) (Or.inr (by decide)),
    (H.2.1 "/w/missing.x" (by decide) (by decide)).mpr rfl,
    (H.2.2.1 "/w/c.gif" (by decide) (by decide) (by decide)).mpr rfl,
    H.2.2.2.2 (by decide),
    (H2.2.2.2.1 (by decide)).1,
    (H2.2.2.2.1 (by decide)).2.2.2.2⟩

/-- C9: when `-r` (remove-source) is requested, the PDF write succeeds and
every deletion succeeds, exactly the paths of the Validated Image Set are
deleted (in order) and the run exits 0 with the PDF still written; the
output path, not being one of the validated sources, is untouched by the
deletion pass; and in any run whatsoever in which the PDF write did not
succeed, nothing is deleted. -/
theorem C9_remove_source (fs : FS) (o : Opts) (sc : Bool)
    (images valid : List String) (out0 : List OutLine) (ds : List Diag)
    (h1 : collectImages fs o = CollectResult.collected sc images out0)
    (h2 : filterImages fs o.verbose images = (valid, ds))
    (h3 : o.remove_source = true)
    (h4 : ∀ q ∈ valid, fs.removeOk q = true)
    (h5 : (pdfilerMain fs o).pdfSaved = true) :
    (pdfilerMain fs o).removed = valid ∧
    (pdfilerMain fs o).exitCode = 0 ∧
    (pdfilerMain fs o).pdfSaved = true ∧
    (o.output ∉ valid → o.output ∉ (pdfilerMain fs o).removed) ∧
    (∀ fs' o', (pdfilerMain fs' o').pdfSaved = false →
      (pdfilerMain fs' o').removed = []) := by
  have hfst : (filterImages fs o.verbose images).1 = valid := by rw [h2]
  have hsnd : (filterImages fs o.verbose images).2 = ds := by rw [h2]
  by_cases hne : images = []
  · rw [hne] at h1
    rw [pdfilerMain_empty_collected fs o sc out0 h1] at h5
    cases h5
  · rw [pdfilerMain_eq_afterValid fs o sc images out0 h1 hne, hfst, hsnd] at h5 ⊢
    obtain ⟨hv, hd, hprn, hprne, hdir, hs⟩ := afterValid_pdfSaved_inv _ _ _ _ _ h5
    rcases hpr : processAll fs o.quality valid with ⟨imgs, err⟩
    rw [hpr] at hprn hprne
    simp only at hprn
    subst hprn
    have hrm := removeAll_all_ok fs valid h4
    rw [afterValid_saved_remove fs o valid ds _ imgs valid true hv hd hpr
      hprne hdir hs h3 hrm]
    exact ⟨rfl, rfl, rfl, fun hout => hout,
      fun fs' o' h' => pdfilerMain_removed_nil fs' o' h'⟩

/-- Witness for C9 at a concrete successful run with `-r`: both validated
sources are removed, the PDF stays, and a world with a failing writer
removes nothing. -/
theorem C9_witness :
    (pdfilerMain exFS (⟨["b.jpg", "a.png"], some "/w", 80, "/out/g.pdf",
      false, true, false⟩ : Opts)).removed = ["/w/b.jpg", "/w/a.png"] ∧
    (pdfilerMain exFS (⟨["b.jpg", "a.png"], some "/w", 80, "/out/g.pdf",
      false, true, false⟩ : Opts)).exitCode = 0 ∧
    (pdfilerMain exFS (⟨["b.jpg", "a.png"], some "/w", 80, "/out/g.pdf",
      false, true, false⟩ : Opts)).pdfSaved = true ∧
    "/out/g.pdf" ∉ (pdfilerMain exFS (⟨["b.jpg", "a.png"], some "/w", 80,
      "/out/g.pdf", false, true, false⟩ : Opts)).removed ∧
    (pdfilerMain { exFS with saveOk := false }
      (⟨["b.jpg", "a.png"], some "/w", 80, "/out/g.pdf",
        false, true, false⟩ : Opts)).removed = [] := by
  have H := C9_remove_source exFS
    (⟨["b.jpg", "a.png"], some "/w", 80, "/out/g.pdf", false, true, false⟩ : Opts)
    false ["/w/b.jpg", "/w/a.png"] ["/w/b.jpg", "/w/a.png"] [] []
    (by decide) (by decide) rfl (by decide) (by decide)
  exact ⟨H.1, H.2.1, H.2.2.1, H.2.2.2.1 (by decide),
    H.2.2.2.2 { exFS with saveOk := false }
      (⟨["b.jpg", "a.png"], some "/w", 80, "/out/g.pdf",
        false, true, false⟩ : Opts) (by decide)⟩

/-- C10: if the PDF write succeeds but, with `-r` requested, deleting one of
the validated sources raises, the run exits 1 reporting the PDF-save error
diagnostic; the sources removed before the failing one stay deleted (the
removed list is exactly the prefix before the first failing path), and the
already-written PDF remains — the deletion pass is neither atomic nor
rolled back. -/
theorem C10_partial_removal (fs : FS) (o : Opts) (sc : Bool)
    (images valid : List String) (out0 : List OutLine) (ds : List Diag)
    (imgs : List ImageObj) (rem : List String)
    (h1 : collectImages fs o = CollectResult.collected sc images out0)
    (h2 : images ≠ [])
    (h3 : filterImages fs o.verbose images = (valid, ds))
    (h4 : o.dry_run = false)
    (h5 : processAll fs o.quality valid = (imgs, none))
    (h6 : dirname (abspath fs o.output) = "" ∨
      fs.pathExists (dirname (abspath fs o.output)) = true)
    (h7 : fs.saveOk = true)
    (h8 : o.remove_source = true)
    (h9 : removeAll fs valid = (rem, false)) :
    (pdfilerMain fs o).exitCode = 1 ∧
    Diag.savePdfError ∈ (pdfilerMain fs o).stderr ∧
    (pdfilerMain fs o).pdfSaved = true ∧
    (pdfilerMain fs o).assembled = some imgs ∧
    (pdfilerMain fs o).removed = rem ∧
    ∃ p post, valid = rem ++ p :: post ∧ fs.removeOk p = false ∧
      ∀ q ∈ rem, fs.removeOk q = true := by
  have hfst : (filterImages fs o.verbose images).1 = valid := by rw [h3]
  have hsnd : (filterImages fs o.verbose images).2 = ds := by rw [h3]
  have hv : valid ≠ [] := by
    intro h0
    rw [h0] at h9
    simp [removeAll] at h9
  have hne : imgs ≠ [] := processAll_ne_nil fs o.quality valid imgs h5 hv
  rw [pdfilerMain_eq_afterValid fs o sc images out0 h1 h2, hfst, hsnd,
    afterValid_saved_remove fs o valid ds _ imgs rem false hv h4 h5 hne
      h6 h7 h8 h9]
  obtain ⟨p, post, hsplit, hp, hall⟩ := removeAll_err fs valid rem h9
  exact ⟨rfl, by simp, rfl, rfl, rfl, p, post, hsplit, hp, hall⟩

/-- Witness for C10 at a concrete world whose `os.remove` fails on
`/w/a.png`: the PDF is written, `/w/b.jpg` stays deleted, `/w/d.png` is
never removed, and the run exits 1 with the save-error diagnostic. -/
theorem C10_witness :
    (pdfilerMain
      ({ exFS with removeOk := fun p => decide (p ≠ "/w/a.png") })
      (⟨["b.jpg", "a.png", "d.png"], some "/w", 80, "/out/g.pdf",
        false, true, false⟩ : Opts)).exitCode = 1 ∧
    Diag.savePdfError ∈ (pdfilerMain
      ({ exFS with removeOk := fun p => decide (p ≠ "/w/a.png") })
      (⟨["b.jpg", "a.png", "d.png"], some "/w", 80, "/out/g.pdf",
        false, true, false⟩ : Opts)).stderr ∧
    (pdfilerMain
      ({ exFS with removeOk := fun p => decide (p ≠ "/w/a.png") })
      (⟨["b.jpg", "a.png", "d.png"], some "/w", 80, "/out/g.pdf",
        false, true, false⟩ : Opts)).pdfSaved = true ∧
    (pdfilerMain
      ({ exFS with removeOk := fun p => decide (p ≠ "/w/a.png") })
      (⟨["b.jpg", "a.png", "d.png"], some "/w", 80, "/out/g.pdf",
        false, true, false⟩ : Opts)).assembled =
      some [⟨some "JPEG", "RGB", true, 1082⟩, ⟨some "JPEG", "RGB", true, 1081⟩,
        ⟨some "JPEG", "RGB", true, 1084⟩] ∧
    (pdfilerMain
      ({ exFS with removeOk := fun p => decide (p ≠ "/w/a.png") })
      (⟨["b.jpg", "a.png", "d.png"], some "/w", 80, "/out/g.pdf",
        false, true, false⟩ : Opts)).removed = ["/w/b.jpg"] := by
  have H := C10_partial_removal
    ({ exFS with removeOk := fun p => decide (p ≠ "/w/a.png") })
    (⟨["b.jpg", "a.png", "d.png"], some "/w", 80, "/out/g.pdf",
      false, true, false⟩ : Opts)
    false ["/w/b.jpg", "/w/a.png", "/w/d.png"]
    ["/w/b.jpg", "/w/a.png", "/w/d.png"] [] []
    [⟨some "JPEG", "RGB", true, 1082⟩, ⟨some "JPEG", "RGB", true, 1081⟩,
      ⟨some "JPEG", "RGB", true, 1084⟩] ["/w/b.jpg"]
    (by decide) (by decide) (by decide) rfl (by decide)
    (Or.inr rfl) rfl rfl (by decide)
  exact ⟨H.1, H.2.1, H.2.2.1, H.2.2.2.1, H.2.2.2.2.1⟩
